import Mathlib

/-!
Verification development for the todocalmenu task manager.

The Go source (todocalmenu.go) is shallowly embedded below.  Go `time.Time`
values are modelled by `GoTime`: a civil wall-clock date-time plus a fixed
zone offset in seconds; the absolute instant of a `GoTime` is derived via
proleptic-Gregorian calendar arithmetic (`daysFromCivilYMD` / `cfdY`-`cfdM`-
`cfdD`), which models the date computations of Go's time package.  The local
zone and the named-zone database are parameters (`Env`).  Launcher
interactions are modelled as event lists: `none` models the launcher
signalling escape (exit status 1), `some s` models the selected line `s`.
-/

/-! ## Calendar arithmetic (model of Go time package date computations) -/

def cOf (doe : Int) : Int :=
  if doe < 36524 then 0 else if doe < 73048 then 1 else if doe < 109572 then 2 else 3

def dcOf (doe : Int) : Int := doe - 36524 * cOf doe

def qOf (doe : Int) : Int := if 35064 ≤ dcOf doe then 24 else dcOf doe / 1461

def dqOf (doe : Int) : Int := dcOf doe - 1461 * qOf doe

def rOf (doe : Int) : Int := if 1095 ≤ dqOf doe then 3 else dqOf doe / 365

def yoeOf (doe : Int) : Int := 100 * cOf doe + 4 * qOf doe + rOf doe

def doyOf (doe : Int) : Int := dqOf doe - 365 * rOf doe

def monthOff (m : Int) : Int :=
  if m = 3 then 0 else if m = 4 then 31 else if m = 5 then 61 else if m = 6 then 92
  else if m = 7 then 122 else if m = 8 then 153 else if m = 9 then 184
  else if m = 10 then 214 else if m = 11 then 245 else if m = 12 then 275
  else if m = 1 then 306 else 337

def mOfDoy (doy : Int) : Int :=
  if doy < 31 then 3 else if doy < 61 then 4 else if doy < 92 then 5 else if doy < 122 then 6
  else if doy < 153 then 7 else if doy < 184 then 8 else if doy < 214 then 9
  else if doy < 245 then 10 else if doy < 275 then 11 else if doy < 306 then 12
  else if doy < 337 then 1 else 2

def dOfDoy (doy : Int) : Int :=
  if doy < 31 then doy + 1 else if doy < 61 then doy - 30 else if doy < 92 then doy - 60
  else if doy < 122 then doy - 91 else if doy < 153 then doy - 121 else if doy < 184 then doy - 152
  else if doy < 214 then doy - 183 else if doy < 245 then doy - 213 else if doy < 275 then doy - 244
  else if doy < 306 then doy - 274 else if doy < 337 then doy - 305 else doy - 336

def eraOf (z : Int) : Int := (z + 719468) / 146097

def doeOf (z : Int) : Int := (z + 719468) % 146097

def cfdY (z : Int) : Int :=
  400 * eraOf z + yoeOf (doeOf z) + (if mOfDoy (doyOf (doeOf z)) ≤ 2 then 1 else 0)

def cfdM (z : Int) : Int := mOfDoy (doyOf (doeOf z))

def cfdD (z : Int) : Int := dOfDoy (doyOf (doeOf z))

def marchYear (y m : Int) : Int := if m ≤ 2 then y - 1 else y

def eraC (y m : Int) : Int := marchYear y m / 400

def yoeC (y m : Int) : Int := marchYear y m - 400 * eraC y m

def daysFromCivilYMD (y m d : Int) : Int :=
  146097 * eraC y m + 365 * yoeC y m + yoeC y m / 4 - yoeC y m / 100 +
    monthOff m + d - 1 - 719468

def isLeapY (y : Int) : Prop := y % 4 = 0 ∧ (y % 100 ≠ 0 ∨ y % 400 = 0)

instance (y : Int) : Decidable (isLeapY y) := by unfold isLeapY; infer_instance

def daysInMonth (y m : Int) : Int :=
  if m = 2 then (if isLeapY y then 29 else 28)
  else if m = 4 ∨ m = 6 ∨ m = 9 ∨ m = 11 then 30 else 31

/-! ## Go time values: civil wall clock plus zone offset -/

structure CivilDT where
  y : Int
  mo : Int
  d : Int
  h : Int
  mi : Int
  s : Int
deriving DecidableEq

structure GoTime where
  wall : CivilDT
  off : Int
deriving DecidableEq

structure Env where
  localOff : Int
  zones : String → Option Int

def civilToInstant (c : CivilDT) : Int :=
  86400 * daysFromCivilYMD c.y c.mo c.d + 3600 * c.h + 60 * c.mi + c.s

def instantToCivil (i : Int) : CivilDT :=
  ⟨cfdY (i / 86400), cfdM (i / 86400), cfdD (i / 86400),
   (i % 86400) / 3600, ((i % 86400) % 3600) / 60, (i % 86400) % 60⟩

def goInstant (t : GoTime) : Int := civilToInstant t.wall - t.off

def goZero : GoTime := ⟨⟨1, 1, 1, 0, 0, 0⟩, 0⟩

def goIsZero (t : GoTime) : Bool := goInstant t == goInstant goZero

def goUTC (t : GoTime) : GoTime := ⟨instantToCivil (goInstant t), 0⟩

def goLocal (env : Env) (t : GoTime) : GoTime :=
  ⟨instantToCivil (goInstant t + env.localOff), env.localOff⟩

def goBefore (a b : GoTime) : Bool := decide (goInstant a < goInstant b)

def goAfter (a b : GoTime) : Bool := decide (goInstant b < goInstant a)

def validCivil (c : CivilDT) : Prop :=
  1 ≤ c.mo ∧ c.mo ≤ 12 ∧ 1 ≤ c.d ∧ c.d ≤ daysInMonth c.y c.mo ∧
  0 ≤ c.h ∧ c.h < 24 ∧ 0 ≤ c.mi ∧ c.mi < 60 ∧ 0 ≤ c.s ∧ c.s < 60

instance (c : CivilDT) : Decidable (validCivil c) := by unfold validCivil; infer_instance

/-! ## Character and digit-string helpers -/

def digitChar (n : Nat) : Char := Char.ofNat (48 + n)

def charVal (c : Char) : Int := Int.ofNat c.toNat - 48

def pad2 (n : Nat) : List Char := [digitChar (n / 10), digitChar (n % 10)]

def pad4 (n : Nat) : List Char :=
  [digitChar (n / 1000), digitChar (n / 100 % 10), digitChar (n / 10 % 10), digitChar (n % 10)]

def val2 (a b : Char) : Int := 10 * charVal a + charVal b

def val4 (a b c d : Char) : Int :=
  1000 * charVal a + 100 * charVal b + 10 * charVal c + charVal d

/-- Model of the Go expression `t.UTC().Format("20060102T150405Z")`: the civil
fields of the UTC wall clock rendered as a 16-character UTC-suffixed stamp. -/
def encodeStamp (c : CivilDT) : String :=
  ⟨pad4 c.y.toNat ++ pad2 c.mo.toNat ++ pad2 c.d.toNat ++ ['T'] ++
   pad2 c.h.toNat ++ pad2 c.mi.toNat ++ pad2 c.s.toNat ++ ['Z']⟩

/-- Model of Go `time.Parse("20060102T150405Z", value)`: sixteen characters,
digits in the field positions, literal T and Z, with the range validation
(month 1-12, day within the month, hour below 24, minute and second below 60)
performed by Go's Parse. -/
def parseStampZCore (l : List Char) : Option CivilDT :=
  match l with
  | [y1, y2, y3, y4, mo1, mo2, d1, d2, t, h1, h2, i1, i2, s1, s2, z] =>
    if (y1.isDigit && y2.isDigit && y3.isDigit && y4.isDigit &&
        mo1.isDigit && mo2.isDigit && d1.isDigit && d2.isDigit &&
        (t == 'T') && h1.isDigit && h2.isDigit && i1.isDigit && i2.isDigit &&
        s1.isDigit && s2.isDigit && (z == 'Z')) then
      let c : CivilDT := ⟨val4 y1 y2 y3 y4, val2 mo1 mo2, val2 d1 d2,
                          val2 h1 h2, val2 i1 i2, val2 s1 s2⟩
      if validCivil c then some c else none
    else none
  | _ => none

def parseStampZ (s : String) : Option CivilDT := parseStampZCore s.data

/-- Model of Go `time.ParseInLocation("20060102T150405", value, loc)` on the
character level (fifteen characters, literal T at index 8). -/
def parseStamp15Core (l : List Char) : Option CivilDT :=
  match l with
  | [y1, y2, y3, y4, mo1, mo2, d1, d2, t, h1, h2, i1, i2, s1, s2] =>
    if (y1.isDigit && y2.isDigit && y3.isDigit && y4.isDigit &&
        mo1.isDigit && mo2.isDigit && d1.isDigit && d2.isDigit &&
        (t == 'T') && h1.isDigit && h2.isDigit && i1.isDigit && i2.isDigit &&
        s1.isDigit && s2.isDigit) then
      let c : CivilDT := ⟨val4 y1 y2 y3 y4, val2 mo1 mo2, val2 d1 d2,
                          val2 h1 h2, val2 i1 i2, val2 s1 s2⟩
      if validCivil c then some c else none
    else none
  | _ => none

def parseStamp15 (s : String) : Option CivilDT := parseStamp15Core s.data

/-- Model of Go `time.ParseInLocation("20060102", value, loc)`. -/
def parseDate8Core (l : List Char) : Option CivilDT :=
  match l with
  | [y1, y2, y3, y4, mo1, mo2, d1, d2] =>
    if (y1.isDigit && y2.isDigit && y3.isDigit && y4.isDigit &&
        mo1.isDigit && mo2.isDigit && d1.isDigit && d2.isDigit) then
      let c : CivilDT := ⟨val4 y1 y2 y3 y4, val2 mo1 mo2, val2 d1 d2, 0, 0, 0⟩
      if validCivil c then some c else none
    else none
  | _ => none

def parseDate8 (s : String) : Option CivilDT := parseDate8Core s.data

/-- Model of Go `time.ParseInLocation("2006-01-02", value, loc)`. -/
def parseYMD (s : String) : Option CivilDT :=
  match s.data with
  | [y1, y2, y3, y4, s1, mo1, mo2, s2, d1, d2] =>
    if (y1.isDigit && y2.isDigit && y3.isDigit && y4.isDigit &&
        (s1 == '-') && mo1.isDigit && mo2.isDigit && (s2 == '-') &&
        d1.isDigit && d2.isDigit) then
      let c : CivilDT := ⟨val4 y1 y2 y3 y4, val2 mo1 mo2, val2 d1 d2, 0, 0, 0⟩
      if validCivil c then some c else none
    else none
  | _ => none

/-! ## Generic string helpers mirroring the Go strings package usage -/

def endsWithZ (s : String) : Bool := s.data.getLast? == some 'Z'

def containsSeq (pat : List Char) : List Char → Bool
  | [] => pat.isEmpty
  | c :: rest => pat.isPrefixOf (c :: rest) || containsSeq pat rest

def goContains (s sub : String) : Bool := containsSeq sub.data s.data

def splitFirst (sep : Char) : List Char → Option (List Char × List Char)
  | [] => none
  | c :: rest =>
    if c = sep then some ([], rest)
    else match splitFirst sep rest with
      | some (a, b) => some (c :: a, b)
      | none => none

def splitComma : List Char → List (List Char)
  | [] => [[]]
  | c :: rest =>
    if c = ',' then [] :: splitComma rest
    else match splitComma rest with
      | g :: gs => (c :: g) :: gs
      | [] => [[c]]

def splitOnCommaStr (s : String) : List String := (splitComma s.data).map String.mk

def isSpaceCh (c : Char) : Bool := c == ' ' || c == '\t' || c == '\n' || c == '\r'

def trimChars (l : List Char) : List Char :=
  ((l.dropWhile isSpaceCh).reverse.dropWhile isSpaceCh).reverse

def strTrim (s : String) : String := String.mk (trimChars s.data)

def joinCommaL : List (List Char) → List Char
  | [] => []
  | [x] => x
  | x :: xs => x ++ ',' :: joinCommaL xs

def joinComma (ls : List String) : String := String.mk (joinCommaL (ls.map String.data))

def asciiLower (c : Char) : Char :=
  if 'A' ≤ c ∧ c ≤ 'Z' then Char.ofNat (c.toNat + 32) else c

def lowerStr (s : String) : String := String.mk (s.data.map asciiLower)

def strStartsWith (s pre : String) : Bool := pre.data.isPrefixOf s.data

def digitsValAux : List Char → Int → Option Int
  | [], acc => some acc
  | c :: rest, acc => if c.isDigit then digitsValAux rest (10 * acc + charVal c) else none

/-- Model of Go `strconv.Atoi`: optional sign followed by one or more digits;
any other input is an error (`none`). -/
def atoi (s : String) : Option Int :=
  match s.data with
  | [] => none
  | '+' :: rest => match rest with
    | [] => none
    | _ => digitsValAux rest 0
  | '-' :: rest => (match rest with
    | [] => none
    | _ => digitsValAux rest 0).map (fun n => -n)
  | l => digitsValAux l 0

def digitsRunAux : List Char → Int → Int × List Char
  | [], acc => (acc, [])
  | c :: rest, acc => if c.isDigit then digitsRunAux rest (10 * acc + charVal c) else (acc, c :: rest)

def takeDigitsRun (l : List Char) : Option (Int × List Char) :=
  match l with
  | [] => none
  | c :: _ => if c.isDigit then some (digitsRunAux l 0) else none

/-- Model of one `%d` conversion of Go `fmt.Sscanf`: optional sign then a
maximal nonempty digit run. -/
def scanInt (l : List Char) : Option (Int × List Char) :=
  match l with
  | '-' :: rest => (takeDigitsRun rest).map (fun p => (-p.1, p.2))
  | '+' :: rest => takeDigitsRun rest
  | _ => takeDigitsRun l

/-- Model of Go `fmt.Sscanf(timeStr, "%d:%d", &hour, &min)`. -/
def scanHMColon (l : List Char) : Option (Int × Int) :=
  match scanInt l with
  | none => none
  | some (h, r) =>
    match r with
    | ':' :: r2 => (scanInt r2).map (fun p => (h, p.1))
    | _ => none

def takeUpTo2Digits (l : List Char) : Option (Int × List Char) :=
  match l with
  | [] => none
  | [c1] => if c1.isDigit then some (charVal c1, []) else none
  | c1 :: c2 :: rest =>
    if c1.isDigit then
      if c2.isDigit then some (10 * charVal c1 + charVal c2, rest)
      else some (charVal c1, c2 :: rest)
    else none

/-- Model of Go `fmt.Sscanf(timeStr, "%02d%02d", &hour, &min)`. -/
def scanHMPlain (l : List Char) : Option (Int × Int) :=
  match takeUpTo2Digits l with
  | none => none
  | some (h, r) => (takeUpTo2Digits r).map (fun p => (h, p.1))

/-! ## The parseDateTime function (todocalmenu.go lines 156-199) -/

/-- Shallow embedding of `parseDateTime`: UTC-suffixed values parse as UTC and
convert to local; `TZID=`-qualified values resolve the zone (via `Env.zones`)
and convert to local; bare 8- and 15-character values parse in the local zone;
anything else (or a parse failure) yields the zero time. -/
def parseDateTime (env : Env) (value : String) : GoTime :=
  if endsWithZ value then
    match parseStampZ value with
    | some c => goLocal env ⟨c, 0⟩
    | none => goZero
  else if goContains value "TZID=" then
    match splitFirst ':' value.data with
    | none => goZero
    | some (p0, p1) =>
      match splitFirst '=' p0 with
      | none => goZero
      | some (_, tzName) =>
        match env.zones (String.mk tzName) with
        | none => goZero
        | some zOff =>
          match parseStamp15 (String.mk p1) with
          | some c => goLocal env ⟨c, zOff⟩
          | none => goZero
  else if value.data.length = 8 then
    match parseDate8 value with
    | some c => ⟨c, env.localOff⟩
    | none => goZero
  else if value.data.length = 15 then
    match parseStamp15 value with
    | some c => ⟨c, env.localOff⟩
    | none => goZero
  else goZero

/-- Model of `t.UTC().Format("20060102T150405Z")` as used in `saveTodos`. -/
def formatStampUTC (t : GoTime) : String := encodeStamp (instantToCivil (goInstant t))

/-! ## The Todo data model (todocalmenu.go lines 26-42) -/

structure Todo where
  uid : String
  summary : String
  description : String
  categories : List String
  status : String
  created : GoTime
  lastMod : GoTime
  dueDate : GoTime
  priority : Int
  startDate : GoTime
  modified : Bool
deriving DecidableEq

/-- Model of one VTODO component of the calendar codec: its UID and its flat
property list (property name, value), in order. -/
structure VTodo where
  id : String
  props : List (String × String)
deriving DecidableEq

def getProp (v : VTodo) (name : String) : Option String :=
  match v.props.find? (fun p => p.1 == name) with
  | some p => some p.2
  | none => none

/-! ## convertVTodoToTodo (todocalmenu.go lines 118-154) -/

def convertVTodoToTodo (env : Env) (v : VTodo) : Todo where
  uid := v.id
  summary := (getProp v "SUMMARY").getD ""
  description := (getProp v "DESCRIPTION").getD ""
  status := (getProp v "STATUS").getD "NEEDS-ACTION"
  created := match getProp v "CREATED" with
    | some s => parseDateTime env s
    | none => goZero
  lastMod := match getProp v "LAST-MODIFIED" with
    | some s => parseDateTime env s
    | none => goZero
  dueDate := match getProp v "DUE" with
    | some s => parseDateTime env s
    | none => goZero
  priority := match getProp v "PRIORITY" with
    | some s => (atoi s).getD 0
    | none => 0
  categories := match getProp v "CATEGORIES" with
    | some s => splitOnCommaStr s
    | none => []
  startDate := match getProp v "DTSTART" with
    | some s => parseDateTime env s
    | none => goZero
  modified := false

/-! ## saveTodos and its property-update helpers (todocalmenu.go lines 201-303) -/

def setProp : List (String × String) → String → String → List (String × String)
  | [], name, val => [(name, val)]
  | (n, v) :: rest, name, val =>
    if n == name then (name, val) :: rest else (n, v) :: setProp rest name val

def removeProp : List (String × String) → String → List (String × String)
  | [], _ => []
  | (n, v) :: rest, name => if n == name then rest else (n, v) :: removeProp rest name

def setPropertyIfNotEmpty (props : List (String × String)) (name value : String) :
    List (String × String) :=
  if value = "" then removeProp props name else setProp props name value

def findPropN (props : List (String × String)) (name : String) : Option String :=
  match props.find? (fun p => p.1 == name) with
  | some p => some p.2
  | none => none

def intToStr (n : Int) : String := toString n

/-- The per-todo property rewrite performed by `saveTodos` on the backing
VTODO, in source order. -/
def updateProps (todo : Todo) (props0 : List (String × String)) : List (String × String) :=
  let p1 := setPropertyIfNotEmpty props0 "SUMMARY" todo.summary
  let p2 := setPropertyIfNotEmpty p1 "DESCRIPTION" todo.description
  let p3 := setPropertyIfNotEmpty p2 "STATUS" todo.status
  let p4 := setPropertyIfNotEmpty p3 "LAST-MODIFIED" (formatStampUTC todo.lastMod)
  let p5 := if goIsZero todo.startDate = false then
      setPropertyIfNotEmpty p4 "DTSTART" (formatStampUTC todo.startDate)
    else removeProp p4 "DTSTART"
  let p6 := if goIsZero todo.dueDate = false then
      setPropertyIfNotEmpty p5 "DUE" (formatStampUTC todo.dueDate)
    else removeProp p5 "DUE"
  let p7 := if todo.priority > 0 then
      setPropertyIfNotEmpty p6 "PRIORITY" (intToStr todo.priority)
    else removeProp p6 "PRIORITY"
  let p8 := if todo.categories.length > 0 then
      setPropertyIfNotEmpty p7 "CATEGORIES" (joinComma todo.categories)
    else removeProp p7 "CATEGORIES"
  match findPropN p8 "CREATED" with
  | none => setPropertyIfNotEmpty p8 "CREATED" (formatStampUTC todo.created)
  | some _ => p8

/-- Locate the VTODO with the todo's UID in the calendar (or append a fresh
one, as `cal.AddTodo`) and rewrite its managed properties. -/
def writeTodoIntoCal (todo : Todo) : List VTodo → List VTodo
  | [] => [⟨todo.uid, updateProps todo []⟩]
  | v :: rest =>
    if v.id == todo.uid then ⟨v.id, updateProps todo v.props⟩ :: rest
    else v :: writeTodoIntoCal todo rest

def lookupFS (fs : List (String × List VTodo)) (k : String) : Option (List VTodo) :=
  match fs.find? (fun p => p.1 == k) with
  | some p => some p.2
  | none => none

def insertFS : List (String × List VTodo) → String → List VTodo → List (String × List VTodo)
  | [], k, c => [(k, c)]
  | (k', c') :: rest, k, c =>
    if k' == k then (k, c) :: rest else (k', c') :: insertFS rest k c

def fname (t : Todo) : String := t.uid ++ ".ics"

/-- Shallow embedding of `saveTodos` over an association-list file system
(writes succeed): unmodified todos are skipped, modified todos get their
backing calendar rewritten and their flag cleared. -/
def saveTodos : List Todo → List (String × List VTodo) →
    List Todo × List (String × List VTodo)
  | [], fs => ([], fs)
  | t :: rest, fs =>
    if t.modified then
      let cal := (lookupFS fs (fname t)).getD []
      let fs' := insertFS fs (fname t) (writeTodoIntoCal t cal)
      let res := saveTodos rest fs'
      ({ t with modified := false } :: res.1, res.2)
    else
      let res := saveTodos rest fs
      (t :: res.1, res.2)

/-! ## deleteTodo (todocalmenu.go lines 520-539) -/

def removeFirstUID (uid : String) : List Todo → List Todo
  | [] => []
  | t :: rest => if t.uid == uid then rest else t :: removeFirstUID uid rest

/-- Shallow embedding of `deleteTodo`: the entry is removed from the list
first; then the backing file removal is attempted (its success is the
`removeOk` oracle) and its outcome is the reported result. -/
def deleteTodo (todo : Todo) (todos : List Todo) (removeOk : Bool) : List Todo × Bool :=
  (removeFirstUID todo.uid todos, removeOk)

/-- The failure-compensation loop of the confirmed "Delete All Completed"
branch of `viewCompletedItems` (todocalmenu.go lines 562-571): completed
todos are deleted one by one and every todo whose deletion failed is appended
back to the remaining list. -/
def bulkDeleteLoop (removeOk : Todo → Bool) : List Todo → List Todo → List Todo
  | [], remaining => remaining
  | t :: rest, remaining =>
    if removeOk t then bulkDeleteLoop removeOk rest remaining
    else bulkDeleteLoop removeOk rest (remaining ++ [t])

/-- Shallow embedding of the confirmed "Delete All Completed" branch of
`viewCompletedItems`: the collection is first partitioned into completed and
remaining todos, each completed todo's deletion is attempted (success given
by the `removeOk` oracle), failures are re-appended, and the final list
overwrites the collection.  The in-loop `deleteTodo` splices on
`todoList.Todos` are dead state here because the final assignment
`todoList.Todos = remainingTodos` discards them. -/
def viewCompletedBulkDelete (todos : List Todo) (removeOk : Todo → Bool) : List Todo :=
  bulkDeleteLoop removeOk (todos.filter (fun t => t.status == "COMPLETED"))
    (todos.filter (fun t => !(t.status == "COMPLETED")))

/-! ## Field editors of the edit loop (todocalmenu.go lines 377-518) -/

def updTitle (todo : Todo) (s : String) : Todo :=
  { todo with summary := s, modified := true }

def updDescription (todo : Todo) (s : String) : Todo :=
  { todo with description := s, modified := true }

def updPriority (todo : Todo) (s : String) : Todo :=
  match atoi s with
  | some pn =>
    if 0 ≤ pn ∧ pn ≤ 9 then
      if pn = 0 then { todo with priority := 0, modified := true }
      else { todo with priority := pn, modified := true }
    else todo
  | none => todo

def updCategories (todo : Todo) (cats : String) (nested : Option String) : Todo :=
  let raw := if cats = "<Enter new category>" then
      (match nested with | some s => s | none => "")
    else cats
  let cs := (splitOnCommaStr raw).map strTrim
  { todo with categories := if cs = [""] then [] else cs, modified := true }

def updDueDate (env : Env) (todo : Todo) (d : String) : Todo :=
  if d = "" then { todo with dueDate := goZero }
  else match parseYMD d with
    | none => todo
    | some c => { todo with dueDate := ⟨c, env.localOff⟩, modified := true }

def updateStartDate (env : Env) (todo : Todo) (dateStr : String) : Todo :=
  if dateStr = "" then { todo with startDate := goZero }
  else match parseYMD dateStr with
    | none => todo
    | some c =>
      if goIsZero todo.startDate = false then
        { todo with
          startDate := ⟨⟨c.y, c.mo, c.d, todo.startDate.wall.h, todo.startDate.wall.mi, 0⟩,
                        env.localOff⟩,
          modified := true }
      else { todo with startDate := ⟨c, env.localOff⟩, modified := true }

def updateStartTime (env : Env) (now : GoTime) (todo : Todo) (timeStr : String) : Todo :=
  if timeStr = "" then todo
  else
    match (if goContains timeStr ":" then scanHMColon timeStr.data
           else scanHMPlain timeStr.data) with
    | none => todo
    | some (h, m) =>
      if 0 ≤ h ∧ h < 24 ∧ 0 ≤ m ∧ m < 60 then
        let base := if goIsZero todo.startDate then goLocal env now else todo.startDate
        { todo with
          startDate := ⟨⟨base.wall.y, base.wall.mo, base.wall.d, h, m, 0⟩, env.localOff⟩,
          modified := true }
      else todo

/-! ## The edit loop (todocalmenu.go lines 329-466) -/

/-- One outer iteration of the edit loop as seen from the launcher boundary:
the outer menu selection (`none` = escape), the single sub-prompt result the
selected branch may open, the nested new-category prompt result, the deletion
confirmation string (whose prompt error the code ignores), the file-removal
outcome, and the current wall-clock time. -/
structure EditEvent where
  outer : Option String
  sub : Option String
  nested : Option String
  confirm : String
  removeOk : Bool
  now : GoTime

inductive EditKind where
  | saved
  | cancelled
  | deleted
  | outOfEvents
deriving DecidableEq

structure EditResult where
  kind : EditKind
  todo : Todo
  todos : List Todo
deriving DecidableEq

inductive StepRes where
  | done (r : EditResult)
  | cont (todo : Todo) (todos : List Todo)

/-- Dispatch of one edit-loop iteration, following the Go switch in source
order (exact match for "Save item", prefix match for the rest). -/
def editDispatch (env : Env) (orig : Todo) (isNew : Bool) (cur : Todo)
    (ts : List Todo) (ev : EditEvent) : StepRes :=
  match ev.outer with
  | none => .done ⟨.cancelled, if isNew then cur else orig, ts⟩
  | some out =>
    if out = "Save item" then
      .done ⟨.saved, { cur with modified := true, lastMod := ev.now }, ts⟩
    else if strStartsWith out "Title" then
      .cont (match ev.sub with | some s => updTitle cur s | none => cur) ts
    else if strStartsWith out "Priority" then
      .cont (match ev.sub with | some s => updPriority cur s | none => cur) ts
    else if strStartsWith out "Categories" then
      .cont (match ev.sub with | some s => updCategories cur s ev.nested | none => cur) ts
    else if strStartsWith out "Due date" then
      .cont (match ev.sub with | some s => updDueDate env cur s | none => cur) ts
    else if strStartsWith out "Start date" then
      .cont (match ev.sub with | some s => updateStartDate env cur s | none => cur) ts
    else if strStartsWith out "Start time" then
      .cont (match ev.sub with | some s => updateStartTime env ev.now cur s | none => cur) ts
    else if strStartsWith out "Description" then
      .cont (match ev.sub with | some s => updDescription cur s | none => cur) ts
    else if strStartsWith out "Complete item" then
      .cont { cur with status := "COMPLETED", lastMod := ev.now, modified := true } ts
    else if strStartsWith out "Restore item" then
      .cont { cur with status := "NEEDS-ACTION", lastMod := ev.now, modified := true } ts
    else if strStartsWith out "Delete item" then
      if lowerStr ev.confirm = "y" then
        if (deleteTodo cur ts ev.removeOk).2 then
          .done ⟨.deleted, cur, (deleteTodo cur ts ev.removeOk).1⟩
        else .cont cur (deleteTodo cur ts ev.removeOk).1
      else .cont cur ts
    else .cont cur ts

def editLoop (env : Env) (orig : Todo) (isNew : Bool) :
    Todo → List Todo → List EditEvent → EditResult
  | cur, ts, [] => ⟨.outOfEvents, cur, ts⟩
  | cur, ts, ev :: rest =>
    match editDispatch env orig isNew cur ts ev with
    | .done r => r
    | .cont cur' ts' => editLoop env orig isNew cur' ts' rest

/-- Shallow embedding of `editItem`: snapshot the todo on entry, record
whether it is new (empty UID), and run the loop over the interaction events. -/
def editItem (env : Env) (todo : Todo) (ts : List Todo) (events : List EditEvent) :
    EditResult :=
  editLoop env todo (todo.uid == "") todo ts events

/-! ## addItem (todocalmenu.go lines 305-327) -/

def generateUID (now : GoTime) : String := toString (goInstant now)

def newTodoAt (now : GoTime) : Todo :=
  { uid := generateUID now, summary := "", description := "", categories := [],
    status := "NEEDS-ACTION", created := now, lastMod := now, dueDate := goZero,
    priority := 0, startDate := goZero, modified := false }

/-- Shallow embedding of `addItem`: prompt for a title (`titleRes`; `none` is
escape), run `editItem` on the fresh todo when the title is nonempty, and
append the todo only when its summary is still nonempty and it was marked
modified. -/
def addItem (env : Env) (titleRes : Option String) (events : List EditEvent)
    (ts : List Todo) (now now2 : GoTime) : List Todo :=
  match titleRes with
  | none => ts
  | some title =>
    if title ≠ "" then
      let r := editItem env { newTodoAt now with summary := title } ts events
      if r.todo.summary ≠ "" ∧ r.todo.modified then
        r.todos ++ [{ r.todo with lastMod := now2 }]
      else r.todos
    else ts

/-! ## The createMenu sort comparator (todocalmenu.go lines 639-669) -/

/-- Shallow embedding of the `sort.Slice` less function in `createMenu`. -/
def todoLess (a b : Todo) : Bool :=
  if goIsZero a.dueDate = false ∧ goIsZero b.dueDate = true then true
  else if goIsZero a.dueDate = true ∧ goIsZero b.dueDate = false then false
  else if goIsZero a.dueDate = false ∧ goIsZero b.dueDate = false then
    goBefore a.dueDate b.dueDate
  else if a.priority ≠ b.priority then
    (if a.priority = 0 then false
     else if b.priority = 0 then true
     else decide (a.priority < b.priority))
  else goAfter a.created b.created

/-- The comparator as the claim words it (a second definition for refinement
comparison): tasks tied on the due-date keys, including two tasks with equal
due dates, fall through to the priority key and then to descending creation. -/
def claimLess (a b : Todo) : Bool :=
  if goIsZero a.dueDate = false ∧ goIsZero b.dueDate = true then true
  else if goIsZero a.dueDate = true ∧ goIsZero b.dueDate = false then false
  else if goIsZero a.dueDate = false ∧ goIsZero b.dueDate = false ∧
      goInstant a.dueDate ≠ goInstant b.dueDate then
    goBefore a.dueDate b.dueDate
  else if a.priority ≠ b.priority then
    (if a.priority = 0 then false
     else if b.priority = 0 then true
     else decide (a.priority < b.priority))
  else goAfter a.created b.created

/-! ## Concrete sample values used by counterexamples and witnesses -/

def cEnv : Env := ⟨0, fun _ => none⟩

def c7env : Env := ⟨19800, fun _ => none⟩

def c7t : GoTime := ⟨⟨2024, 5, 6, 12, 30, 45⟩, 19800⟩

def baseTodo : Todo :=
  { uid := "u0", summary := "task", description := "", categories := [],
    status := "NEEDS-ACTION", created := goZero, lastMod := goZero,
    dueDate := goZero, priority := 0, startDate := goZero, modified := false }

def c1todo : Todo :=
  { baseTodo with
    uid := "u1", dueDate := ⟨⟨2024, 1, 15, 0, 0, 0⟩, 0⟩,
    startDate := ⟨⟨2024, 1, 15, 9, 0, 0⟩, 0⟩ }

def c8todo : Todo :=
  { baseTodo with uid := "u8", startDate := ⟨⟨2024, 1, 1, 10, 30, 45⟩, 0⟩ }

def c8tz : Todo := { baseTodo with uid := "u8z" }

def c8now : GoTime := ⟨⟨2024, 2, 3, 8, 0, 0⟩, 0⟩

def c2todo : Todo := { baseTodo with uid := "u2" }

def c2comp : Todo := { baseTodo with uid := "u2c", status := "COMPLETED" }

def c6vtodo : VTodo := ⟨"v6", [("SUMMARY", "t"), ("PRIORITY", "15")]⟩

def c3A : Todo :=
  { baseTodo with uid := "a", dueDate := ⟨⟨2024, 1, 10, 0, 0, 0⟩, 0⟩, priority := 2 }

def c3B : Todo :=
  { baseTodo with uid := "b", dueDate := ⟨⟨2024, 1, 10, 0, 0, 0⟩, 0⟩, priority := 1 }

def c3exA : Todo := { baseTodo with uid := "xa", dueDate := ⟨⟨2024, 1, 10, 0, 0, 0⟩, 0⟩ }

def c3exB : Todo := { baseTodo with uid := "xb", dueDate := ⟨⟨2024, 2, 10, 0, 0, 0⟩, 0⟩ }

def c3exP1 : Todo := { baseTodo with uid := "xp1", priority := 1 }

def c3exP0 : Todo := { baseTodo with uid := "xp0", priority := 0 }

def c5clean : Todo := { baseTodo with uid := "uc" }

def c5dirty : Todo := { baseTodo with uid := "ud", modified := true }

def c5fs : List (String × List VTodo) := [("uc.ics", [⟨"uc", [("SUMMARY", "old")]⟩])]

/-! ## Calendar correctness lemmas -/

theorem yoe_div4 (c q r : Int) (hc : 0 ≤ c) (hc' : c ≤ 3) (hq : 0 ≤ q) (hq' : q ≤ 24)
    (hr : 0 ≤ r) (hr' : r ≤ 3) : (100 * c + 4 * q + r) / 4 = 25 * c + q := by omega

theorem yoe_div100 (c q r : Int) (hc : 0 ≤ c) (hc' : c ≤ 3) (hq : 0 ≤ q) (hq' : q ≤ 24)
    (hr : 0 ≤ r) (hr' : r ≤ 3) : (100 * c + 4 * q + r) / 100 = c := by omega

set_option maxHeartbeats 1000000 in
theorem era_decomp (doe : Int) (h0 : 0 ≤ doe) (h1 : doe ≤ 146096) :
    0 ≤ cOf doe ∧ cOf doe ≤ 3 ∧ 0 ≤ qOf doe ∧ qOf doe ≤ 24 ∧ 0 ≤ rOf doe ∧ rOf doe ≤ 3 ∧
    0 ≤ doyOf doe ∧
    doyOf doe ≤ 364 +
      (if (yoeOf doe + 1) % 4 = 0 ∧ ((yoeOf doe + 1) % 100 ≠ 0 ∨ yoeOf doe = 399)
       then 1 else 0) ∧
    36524 * cOf doe + 1461 * qOf doe + 365 * rOf doe + doyOf doe = doe := by
  unfold yoeOf doyOf rOf dqOf qOf dcOf cOf
  split_ifs <;> omega

set_option maxHeartbeats 1000000 in
theorem month_spec (doy : Int) (h0 : 0 ≤ doy) (h1 : doy ≤ 365) :
    1 ≤ mOfDoy doy ∧ mOfDoy doy ≤ 12 ∧ 1 ≤ dOfDoy doy ∧
    monthOff (mOfDoy doy) + dOfDoy doy - 1 = doy ∧
    (mOfDoy doy = 2 → dOfDoy doy = doy - 336) ∧
    (mOfDoy doy = 4 ∨ mOfDoy doy = 6 ∨ mOfDoy doy = 9 ∨ mOfDoy doy = 11 → dOfDoy doy ≤ 30) ∧
    (mOfDoy doy ≠ 2 → dOfDoy doy ≤ 31) ∧
    (mOfDoy doy ≤ 2 ↔ 306 ≤ doy) := by
  unfold mOfDoy dOfDoy
  split_ifs <;> simp only [monthOff] <;> norm_num <;> omega

theorem doe_bounds (z : Int) : 0 ≤ doeOf z ∧ doeOf z ≤ 146096 ∧
    z + 719468 = 146097 * eraOf z + doeOf z := by
  unfold doeOf eraOf; omega

theorem doy_bounds (z : Int) : 0 ≤ doyOf (doeOf z) ∧ doyOf (doeOf z) ≤ 365 := by
  obtain ⟨h0, h1, -⟩ := doe_bounds z
  obtain ⟨-, -, -, -, -, -, h7, h8, -⟩ := era_decomp (doeOf z) h0 h1
  constructor
  · exact h7
  · split_ifs at h8 <;> omega

theorem yoe_eq (doe : Int) : yoeOf doe = 100 * cOf doe + 4 * qOf doe + rOf doe := rfl

set_option maxHeartbeats 1000000 in
theorem days_roundtrip (z : Int) : daysFromCivilYMD (cfdY z) (cfdM z) (cfdD z) = z := by
  obtain ⟨hd0, hd1, hze⟩ := doe_bounds z
  obtain ⟨hc0, hc1, hq0, hq1, hr0, hr1, hy0, hy1, heq⟩ := era_decomp (doeOf z) hd0 hd1
  obtain ⟨hdy0, hdy1⟩ := doy_bounds z
  obtain ⟨hm1, hm2, hdd1, hoff, -, -, -, hm2iff⟩ := month_spec (doyOf (doeOf z)) hdy0 hdy1
  have hyoe := yoe_eq (doeOf z)
  have hmarch : marchYear (cfdY z) (cfdM z) = 400 * eraOf z + yoeOf (doeOf z) := by
    unfold marchYear cfdY cfdM
    split_ifs <;> omega
  have hera : eraC (cfdY z) (cfdM z) = eraOf z := by
    unfold eraC; rw [hmarch]; omega
  have hyoeC : yoeC (cfdY z) (cfdM z) = yoeOf (doeOf z) := by
    unfold yoeC; rw [hmarch, hera]; ring
  have hdiv4 : yoeOf (doeOf z) / 4 = 25 * cOf (doeOf z) + qOf (doeOf z) := by
    rw [hyoe]; exact yoe_div4 _ _ _ hc0 hc1 hq0 hq1 hr0 hr1
  have hdiv100 : yoeOf (doeOf z) / 100 = cOf (doeOf z) := by
    rw [hyoe]; exact yoe_div100 _ _ _ hc0 hc1 hq0 hq1 hr0 hr1
  unfold daysFromCivilYMD
  rw [hera, hyoeC, hdiv4, hdiv100]
  have : monthOff (cfdM z) + cfdD z - 1 = doyOf (doeOf z) := hoff
  omega

set_option maxHeartbeats 1000000 in
theorem cfd_valid (z : Int) :
    1 ≤ cfdM z ∧ cfdM z ≤ 12 ∧ 1 ≤ cfdD z ∧ cfdD z ≤ daysInMonth (cfdY z) (cfdM z) := by
  obtain ⟨hd0, hd1, hze⟩ := doe_bounds z
  obtain ⟨hc0, hc1, hq0, hq1, hr0, hr1, hy0, hy1, heq⟩ := era_decomp (doeOf z) hd0 hd1
  obtain ⟨hdy0, hdy1⟩ := doy_bounds z
  obtain ⟨hm1, hm2, hdd1, hoff, hfeb, h30, h31, hm2iff⟩ := month_spec (doyOf (doeOf z)) hdy0 hdy1
  have hyoe := yoe_eq (doeOf z)
  have hcd : cfdD z = dOfDoy (doyOf (doeOf z)) := rfl
  have hcm : cfdM z = mOfDoy (doyOf (doeOf z)) := rfl
  have hy1' : ((yoeOf (doeOf z) + 1) % 4 = 0 ∧
      ((yoeOf (doeOf z) + 1) % 100 ≠ 0 ∨ yoeOf (doeOf z) = 399)) ∨
      doyOf (doeOf z) ≤ 364 := by
    split_ifs at hy1 with h
    · exact Or.inl h
    · exact Or.inr (by omega)
  have hyv : (mOfDoy (doyOf (doeOf z)) ≤ 2 ∧
      cfdY z = 400 * eraOf z + yoeOf (doeOf z) + 1) ∨
      (¬ mOfDoy (doyOf (doeOf z)) ≤ 2 ∧ cfdY z = 400 * eraOf z + yoeOf (doeOf z)) := by
    unfold cfdY
    split_ifs with h
    · exact Or.inl ⟨h, rfl⟩
    · exact Or.inr ⟨h, by omega⟩
  refine ⟨hm1, hm2, hdd1, ?_⟩
  unfold daysInMonth isLeapY
  split_ifs with hfebm hleap <;> omega

/-! ## Instant-level round trips -/

theorem civil_instant_roundtrip (i : Int) : civilToInstant (instantToCivil i) = i := by
  unfold civilToInstant instantToCivil
  simp only
  rw [days_roundtrip]
  omega

theorem instantToCivil_valid (i : Int) : validCivil (instantToCivil i) := by
  obtain ⟨h1, h2, h3, h4⟩ := cfd_valid (i / 86400)
  unfold validCivil instantToCivil
  refine ⟨h1, h2, h3, h4, ?_, ?_, ?_, ?_, ?_, ?_⟩ <;> simp only <;> omega

theorem goInstant_goLocal (env : Env) (t : GoTime) :
    goInstant (goLocal env t) = goInstant t := by
  show civilToInstant (instantToCivil (goInstant t + env.localOff)) - env.localOff = goInstant t
  rw [civil_instant_roundtrip]
  ring

theorem goInstant_goUTC (t : GoTime) : goInstant (goUTC t) = goInstant t := by
  show civilToInstant (instantToCivil (goInstant t)) - 0 = goInstant t
  rw [civil_instant_roundtrip]
  ring

/-! ## Digit encoding lemmas -/

theorem charVal_digitChar : ∀ n, n < 10 → charVal (digitChar n) = (n : Int) := by decide

theorem isDigit_digitChar : ∀ n, n < 10 → (digitChar n).isDigit = true := by decide

theorem val4_pad (n : Nat) (h : n ≤ 9999) :
    val4 (digitChar (n / 1000)) (digitChar (n / 100 % 10)) (digitChar (n / 10 % 10))
      (digitChar (n % 10)) = (n : Int) := by
  unfold val4
  rw [charVal_digitChar _ (by omega), charVal_digitChar _ (by omega),
      charVal_digitChar _ (by omega), charVal_digitChar _ (by omega)]
  omega

theorem val2_pad (n : Nat) (h : n ≤ 99) :
    val2 (digitChar (n / 10)) (digitChar (n % 10)) = (n : Int) := by
  unfold val2
  rw [charVal_digitChar _ (by omega), charVal_digitChar _ (by omega)]
  omega

theorem daysInMonth_le_31 (y m : Int) : daysInMonth y m ≤ 31 := by
  unfold daysInMonth; split_ifs <;> omega

set_option maxHeartbeats 1000000 in
theorem parseStampZ_encodeStamp (c : CivilDT) (hv : validCivil c)
    (hy1 : 1 ≤ c.y) (hy2 : c.y ≤ 9999) :
    parseStampZ (encodeStamp c) = some c := by
  obtain ⟨h1, h2, h3, h4, h5, h6, h7, h8, h9, h10⟩ := hv
  have hdim : daysInMonth c.y c.mo ≤ 31 := daysInMonth_le_31 c.y c.mo
  have hyb : c.y.toNat ≤ 9999 := by omega
  have hmob : c.mo.toNat ≤ 99 := by omega
  have hdb : c.d.toNat ≤ 99 := by omega
  have hhb : c.h.toNat ≤ 99 := by omega
  have hmib : c.mi.toNat ≤ 99 := by omega
  have hsb : c.s.toNat ≤ 99 := by omega
  show parseStampZCore
      (pad4 c.y.toNat ++ pad2 c.mo.toNat ++ pad2 c.d.toNat ++ ['T'] ++
       pad2 c.h.toNat ++ pad2 c.mi.toNat ++ pad2 c.s.toNat ++ ['Z']) = some c
  simp only [pad4, pad2, List.cons_append, List.nil_append, parseStampZCore]
  rw [isDigit_digitChar _ (by omega), isDigit_digitChar _ (by omega),
      isDigit_digitChar _ (by omega), isDigit_digitChar _ (by omega),
      isDigit_digitChar _ (by omega), isDigit_digitChar _ (by omega),
      isDigit_digitChar _ (by omega), isDigit_digitChar _ (by omega),
      isDigit_digitChar _ (by omega), isDigit_digitChar _ (by omega),
      isDigit_digitChar _ (by omega), isDigit_digitChar _ (by omega),
      isDigit_digitChar _ (by omega), isDigit_digitChar _ (by omega)]
  simp only [Bool.and_self, Bool.true_and, beq_self_eq_true, Bool.and_true, if_true]
  rw [val4_pad _ hyb, val2_pad _ hmob, val2_pad _ hdb, val2_pad _ hhb,
      val2_pad _ hmib, val2_pad _ hsb]
  have ey : (c.y.toNat : Int) = c.y := Int.toNat_of_nonneg (by omega)
  have emo : (c.mo.toNat : Int) = c.mo := Int.toNat_of_nonneg (by omega)
  have ed : (c.d.toNat : Int) = c.d := Int.toNat_of_nonneg (by omega)
  have eh : (c.h.toNat : Int) = c.h := Int.toNat_of_nonneg (by omega)
  have emi : (c.mi.toNat : Int) = c.mi := Int.toNat_of_nonneg (by omega)
  have es : (c.s.toNat : Int) = c.s := Int.toNat_of_nonneg (by omega)
  rw [ey, emo, ed, eh, emi, es]
  rw [if_pos ⟨h1, h2, h3, h4, h5, h6, h7, h8, h9, h10⟩]

theorem endsWithZ_encodeStamp (c : CivilDT) : endsWithZ (encodeStamp c) = true := by
  show ((pad4 c.y.toNat ++ pad2 c.mo.toNat ++ pad2 c.d.toNat ++ ['T'] ++
         pad2 c.h.toNat ++ pad2 c.mi.toNat ++ pad2 c.s.toNat ++ ['Z']).getLast?
        == some 'Z') = true
  rw [List.getLast?_concat]
  decide

/-! ## Claim C7: serialization emits UTC form and round-trips the instant -/

/-- C7: date-time serialization for storage always emits the UTC-suffixed form
(trailing "Z"), and the round trip serialize-then-parse preserves the absolute
instant: re-serializing the in-memory local-time value yields a UTC string
denoting the same instant, and parsing that UTC-suffixed string yields the
same absolute time as the original.  (The year-range hypotheses delimit the
timestamps whose 4-digit year rendering is the unambiguous Go format.) -/
theorem c7_serialize_roundtrip (env : Env) (t : GoTime)
    (hy1 : 1 ≤ (instantToCivil (goInstant t)).y)
    (hy2 : (instantToCivil (goInstant t)).y ≤ 9999) :
    endsWithZ (formatStampUTC t) = true ∧
    goInstant (parseDateTime env (formatStampUTC t)) = goInstant t := by
  have hv : validCivil (instantToCivil (goInstant t)) := instantToCivil_valid _
  have hz : endsWithZ (formatStampUTC t) = true := endsWithZ_encodeStamp _
  refine ⟨hz, ?_⟩
  have hp : parseStampZ (formatStampUTC t) = some (instantToCivil (goInstant t)) :=
    parseStampZ_encodeStamp _ hv hy1 hy2
  unfold parseDateTime
  rw [if_pos hz]
  unfold parseStampZ at hp
  unfold parseStampZ
  rw [hp, goInstant_goLocal]
  show civilToInstant (instantToCivil (goInstant t)) - 0 = goInstant t
  rw [civil_instant_roundtrip]
  ring

/-- Witness for C7 at a concrete timestamp with a nonzero zone offset. -/
theorem c7_witness :
    1 ≤ (instantToCivil (goInstant c7t)).y ∧ (instantToCivil (goInstant c7t)).y ≤ 9999 ∧
    (endsWithZ (formatStampUTC c7t) = true ∧
     goInstant (parseDateTime c7env (formatStampUTC c7t)) = goInstant c7t) :=
  ⟨by decide, by decide, c7_serialize_roundtrip c7env c7t (by decide) (by decide)⟩

/-! ## Claim C1: field sub-prompts, updates and the dirty flag -/

/-- C1 counterexample: submitting the empty string to the Due date (or Start
date) sub-prompt clears the field but does not set the dirty flag, contrary
to the claim that it "also marks the task dirty". -/
theorem c1_counterexample :
    goIsZero c1todo.dueDate = false ∧
    (updDueDate cEnv c1todo "").dueDate = goZero ∧
    (updDueDate cEnv c1todo "").modified = false ∧
    goIsZero c1todo.startDate = false ∧
    (updateStartDate cEnv c1todo "").startDate = goZero ∧
    (updateStartDate cEnv c1todo "").modified = false := by decide

/-- C1 (amended): for the Title, Description and Categories sub-prompts a
non-cancelled result updates the field — the category set becoming the
trimmed comma-split of the entry, with a single empty entry normalizing to
the empty set — and sets the dirty flag.  For the Due date and Start date
sub-prompts a valid date updates the field (a start date preserves the hour
and minute of an existing non-zero timestamp) and sets the dirty flag, but
an empty submission clears the date field WITHOUT touching the dirty flag,
and an invalid date leaves the task entirely unchanged.  A valid Start time
updates the time-of-day and sets the dirty flag; an empty Start time
submission is a no-op. -/
theorem c1_field_updates (env : Env) (todo : Todo) (s : String) (nst : Option String)
    (d d2 tstr : String) (c : CivilDT) (now : GoTime) (h m : Int)
    (hd : d ≠ "") (hc : parseYMD d = some c)
    (hd2 : d2 ≠ "") (hc2 : parseYMD d2 = none)
    (ht : tstr ≠ "")
    (hp : (if goContains tstr ":" then scanHMColon tstr.data else scanHMPlain tstr.data) =
          some (h, m))
    (hr : 0 ≤ h ∧ h < 24 ∧ 0 ≤ m ∧ m < 60) :
    updTitle todo s = { todo with summary := s, modified := true } ∧
    updDescription todo s = { todo with description := s, modified := true } ∧
    updCategories todo s nst =
      { todo with
        categories :=
          if (splitOnCommaStr (if s = "<Enter new category>" then
                (match nst with | some s2 => s2 | none => "") else s)).map strTrim = [""]
          then []
          else (splitOnCommaStr (if s = "<Enter new category>" then
                (match nst with | some s2 => s2 | none => "") else s)).map strTrim,
        modified := true } ∧
    updDueDate env todo d = { todo with dueDate := ⟨c, env.localOff⟩, modified := true } ∧
    (goIsZero todo.startDate = true →
      updateStartDate env todo d =
        { todo with startDate := ⟨c, env.localOff⟩, modified := true }) ∧
    (goIsZero todo.startDate = false →
      updateStartDate env todo d =
        { todo with
          startDate := ⟨⟨c.y, c.mo, c.d, todo.startDate.wall.h, todo.startDate.wall.mi, 0⟩,
                        env.localOff⟩,
          modified := true }) ∧
    (updateStartTime env now todo tstr).modified = true ∧
    (updateStartTime env now todo tstr).startDate.wall.h = h ∧
    (updateStartTime env now todo tstr).startDate.wall.mi = m ∧
    updDueDate env todo "" = { todo with dueDate := goZero } ∧
    updateStartDate env todo "" = { todo with startDate := goZero } ∧
    updDueDate env todo d2 = todo ∧
    updateStartDate env todo d2 = todo ∧
    updateStartTime env now todo "" = todo := by
  refine ⟨rfl, rfl, rfl, ?_, ?_, ?_, ?_, ?_, ?_, rfl, rfl, ?_, ?_, rfl⟩
  · simp only [updDueDate, if_neg hd, hc]
  · intro hz
    simp only [updateStartDate, if_neg hd, hc]
    rw [if_neg (by simp [hz])]
  · intro hnz
    simp only [updateStartDate, if_neg hd, hc]
    rw [if_pos hnz]
  · simp only [updateStartTime, if_neg ht, hp]
    rw [if_pos hr]
  · simp only [updateStartTime, if_neg ht, hp]
    rw [if_pos hr]
  · simp only [updateStartTime, if_neg ht, hp]
    rw [if_pos hr]
  · simp only [updDueDate, if_neg hd2, hc2]
  · simp only [updateStartDate, if_neg hd2, hc2]

/-- Witness for C1 (amended) at a concrete task with concrete valid, empty
and invalid date strings. -/
theorem c1_witness :
    updDueDate cEnv c1todo "2024-05-06" =
      { c1todo with dueDate := ⟨⟨2024, 5, 6, 0, 0, 0⟩, cEnv.localOff⟩, modified := true } ∧
    updDueDate cEnv c1todo "" = { c1todo with dueDate := goZero } ∧
    updDueDate cEnv c1todo "2024-13-01" = c1todo := by
  have H := c1_field_updates cEnv c1todo "x" none "2024-05-06" "2024-13-01" "10:30"
    ⟨2024, 5, 6, 0, 0, 0⟩ goZero 10 30 (by decide) (by decide) (by decide) (by decide)
    (by decide) (by decide) (by decide)
  exact ⟨H.2.2.2.1, H.2.2.2.2.2.2.2.2.2.1, H.2.2.2.2.2.2.2.2.2.2.2.1⟩

/-! ## Claim C10: nested category-entry cancellation -/

/-- C10: selecting "<Enter new category>" and cancelling the nested entry
prompt is not treated as a cancel: the category set becomes empty and the
task is marked dirty, exactly as if an empty entry had been submitted. -/
theorem c10_nested_cancel_clears (todo : Todo) :
    updCategories todo "<Enter new category>" none =
      { todo with categories := [], modified := true } ∧
    updCategories todo "<Enter new category>" none =
      updCategories todo "<Enter new category>" (some "") := by
  exact ⟨rfl, rfl⟩

/-! ## Claim C8: shared start timestamp postconditions -/

/-- C8 counterexample: setting a date on a task whose start timestamp carries
seconds 45 preserves only the hour and minute; the seconds are zeroed, so the
existing time-of-day is not preserved. -/
theorem c8_counterexample :
    goIsZero c8todo.startDate = false ∧
    (updateStartDate cEnv c8todo "2024-05-06").startDate.wall.h = 10 ∧
    (updateStartDate cEnv c8todo "2024-05-06").startDate.wall.mi = 30 ∧
    c8todo.startDate.wall.s = 45 ∧
    (updateStartDate cEnv c8todo "2024-05-06").startDate.wall.s = 0 ∧
    (updateStartDate cEnv c8todo "2024-05-06").startDate.wall.s ≠ c8todo.startDate.wall.s := by
  decide

/-- C8 (amended): setting a date on a non-zero timestamp preserves the hour
and minute of the existing time-of-day and zeroes its seconds; setting a time
on a zero timestamp anchors the date part to the current local day; an empty
start date clears the whole timestamp; an empty start time is a no-op. -/
theorem c8_start_timestamp (env : Env) (todo tz : Todo) (d : String) (c : CivilDT)
    (now : GoTime) (tstr : String) (h m : Int)
    (hd : d ≠ "") (hc : parseYMD d = some c)
    (hnz : goIsZero todo.startDate = false)
    (hz : goIsZero tz.startDate = true)
    (ht : tstr ≠ "")
    (hp : (if goContains tstr ":" then scanHMColon tstr.data else scanHMPlain tstr.data) =
          some (h, m))
    (hr : 0 ≤ h ∧ h < 24 ∧ 0 ≤ m ∧ m < 60) :
    updateStartDate env todo d =
      { todo with
        startDate := ⟨⟨c.y, c.mo, c.d, todo.startDate.wall.h, todo.startDate.wall.mi, 0⟩,
                      env.localOff⟩,
        modified := true } ∧
    updateStartTime env now tz tstr =
      { tz with
        startDate := ⟨⟨(goLocal env now).wall.y, (goLocal env now).wall.mo,
                       (goLocal env now).wall.d, h, m, 0⟩, env.localOff⟩,
        modified := true } ∧
    updateStartDate env todo "" = { todo with startDate := goZero } ∧
    updateStartTime env now todo "" = todo := by
  refine ⟨?_, ?_, rfl, rfl⟩
  · simp only [updateStartDate, if_neg hd, hc]
    rw [if_pos hnz]
  · simp only [updateStartTime, if_neg ht, hp]
    rw [if_pos hr]
    simp only [hz, if_true]

/-- Witness for C8 (amended): a concrete time edit on a zero start timestamp. -/
theorem c8_witness :
    updateStartTime cEnv c8now c8tz "10:30" =
      { c8tz with
        startDate := ⟨⟨(goLocal cEnv c8now).wall.y, (goLocal cEnv c8now).wall.mo,
                       (goLocal cEnv c8now).wall.d, 10, 30, 0⟩, cEnv.localOff⟩,
        modified := true } :=
  (c8_start_timestamp cEnv c8todo c8tz "2024-05-06" ⟨2024, 5, 6, 0, 0, 0⟩ c8now "10:30" 10 30
    (by decide) (by decide) (by decide) (by decide) (by decide) (by decide) (by decide)).2.1

/-! ## Claim C6: the priority range invariant -/

/-- C6 counterexample: loading a stored PRIORITY of "15" produces a task with
priority 15, outside the claimed invariant range [0,9]. -/
theorem c6_counterexample : (convertVTodoToTodo cEnv c6vtodo).priority = 15 := by decide

/-- C6 (amended): the priority sub-prompt preserves priority ∈ [0,9] — it
either leaves the priority unchanged or sets a value between 0 and 9 — but
loading stores whatever integer the PRIORITY property parses to, unclamped. -/
theorem c6_priority_edit_range (todo : Todo) (s : String) :
    (updPriority todo s).priority = todo.priority ∨
    (0 ≤ (updPriority todo s).priority ∧ (updPriority todo s).priority ≤ 9) := by
  unfold updPriority
  cases h : atoi s with
  | none => exact Or.inl rfl
  | some pn =>
    simp only
    split_ifs with h1 h2
    · refine Or.inr ⟨?_, ?_⟩
      · show (0 : Int) ≤ 0
        omega
      · show (0 : Int) ≤ 9
        omega
    · refine Or.inr ⟨?_, ?_⟩
      · show 0 ≤ pn
        omega
      · show pn ≤ 9
        omega
    · exact Or.inl rfl

/-! ## Claim C2: deletion with file-removal failure -/

/-- C2 counterexample: deleting the sole task with a failing file removal
reports failure, yet the in-memory collection no longer contains the task —
the entry is not "still present in the store". -/
theorem c2_counterexample :
    (deleteTodo c2todo [c2todo] false).2 = false ∧
    (deleteTodo c2todo [c2todo] false).1 = [] := by decide

theorem bulkDeleteLoop_mem_remaining (removeOk : Todo → Bool) :
    ∀ (completed remaining : List Todo) (u : Todo), u ∈ remaining →
      u ∈ bulkDeleteLoop removeOk completed remaining := by
  intro completed
  induction completed with
  | nil => intro remaining u hu; exact hu
  | cons t rest ih =>
    intro remaining u hu
    unfold bulkDeleteLoop
    by_cases hok : removeOk t = true
    · rw [if_pos hok]
      exact ih remaining u hu
    · rw [if_neg hok]
      exact ih (remaining ++ [t]) u (List.mem_append_left [t] hu)

theorem bulkDeleteLoop_mem_failed (removeOk : Todo → Bool) :
    ∀ (completed remaining : List Todo) (t : Todo), t ∈ completed →
      removeOk t = false → t ∈ bulkDeleteLoop removeOk completed remaining := by
  intro completed
  induction completed with
  | nil => intro remaining t ht _; exact absurd ht (List.not_mem_nil t)
  | cons v rest ih =>
    intro remaining t ht hfail
    unfold bulkDeleteLoop
    rcases List.mem_cons.mp ht with h | h
    · subst h
      rw [if_neg (by rw [hfail]; exact Bool.false_ne_true)]
      exact bulkDeleteLoop_mem_remaining removeOk rest (remaining ++ [t]) t
        (List.mem_append_right remaining (List.mem_singleton_self t))
    · by_cases hok : removeOk v = true
      · rw [if_pos hok]
        exact ih remaining t h hfail
      · rw [if_neg hok]
        exact ih (remaining ++ [v]) t h hfail

/-- C2 (amended): the entry is removed from the in-memory collection before
the file removal is attempted, so when the removal fails the operation
reports failure but no entry with the task's UID remains (assuming the UID
occurs at most once); the bulk delete-all-completed path of
`viewCompletedItems` compensates by re-adding every completed task whose
deletion failed, so such a task is still in the collection afterwards. -/
theorem c2_delete_failure (todo : Todo) (ts : List Todo)
    (huniq : (ts.filter (fun u => u.uid == todo.uid)).length ≤ 1) :
    (deleteTodo todo ts false).2 = false ∧
    (∀ u ∈ (deleteTodo todo ts false).1, u.uid ≠ todo.uid) ∧
    (∀ (removeOk : Todo → Bool) (t : Todo), t ∈ ts → t.status = "COMPLETED" →
      removeOk t = false → t ∈ viewCompletedBulkDelete ts removeOk) := by
  refine ⟨rfl, ?_, ?_⟩
  · show ∀ u ∈ removeFirstUID todo.uid ts, u.uid ≠ todo.uid
    induction ts with
    | nil => intro u hu; simp [removeFirstUID] at hu
    | cons v rest ih =>
      intro u hu
      simp only [removeFirstUID] at hu
      by_cases hv : (v.uid == todo.uid) = true
      · rw [if_pos hv] at hu
        simp only [List.filter_cons, hv, if_true, List.length_cons] at huniq
        have hlen : (rest.filter (fun u => u.uid == todo.uid)).length = 0 := by omega
        have hnil := List.length_eq_zero.mp hlen
        intro hcontra
        have hmem : u ∈ rest.filter (fun u => u.uid == todo.uid) :=
          List.mem_filter.mpr ⟨hu, by simp [hcontra]⟩
        rw [hnil] at hmem
        simp at hmem
      · rw [if_neg hv] at hu
        rcases List.mem_cons.mp hu with h | h
        · subst h
          intro hcontra
          exact hv (by simp [hcontra])
        · refine ih ?_ u h
          simp only [List.filter_cons, hv, if_false] at huniq
          exact huniq
  · intro removeOk t ht hstat hfail
    unfold viewCompletedBulkDelete
    exact bulkDeleteLoop_mem_failed removeOk _ _ t
      (List.mem_filter.mpr ⟨ht, by simp [hstat]⟩) hfail

/-- Witness for C2 (amended) at a concrete two-element store: the failed
single delete leaves no entry with the UID, and a completed task whose bulk
deletion fails is still in the collection afterwards. -/
theorem c2_witness :
    (deleteTodo c2todo [c2todo, c2comp] false).2 = false ∧
    (∀ u ∈ (deleteTodo c2todo [c2todo, c2comp] false).1, u.uid ≠ c2todo.uid) ∧
    c2comp ∈ viewCompletedBulkDelete [c2todo, c2comp] (fun _ => false) := by
  have H := c2_delete_failure c2todo [c2todo, c2comp] (by decide)
  exact ⟨H.1, H.2.1, H.2.2 (fun _ => false) c2comp (by decide) (by decide) rfl⟩

/-! ## Claim C3: the menu sort comparator -/

/-- C3 counterexample: two tasks with equal due dates and different priorities
are ordered by the claimed comparator (ascending priority) but the code
comparator reports neither before the other — for equal due dates the
priority key is never consulted. -/
theorem c3_counterexample :
    goInstant c3A.dueDate = goInstant c3B.dueDate ∧
    c3B.priority < c3A.priority ∧
    claimLess c3B c3A = true ∧
    todoLess c3B c3A = false ∧
    todoLess c3A c3B = false := by decide

/-- C3 (amended): the menu comparator orders tasks with a due date before
tasks without one; among tasks with due dates, strictly ascending due date
with no further tie-break (tasks with equal due dates are mutually unordered);
among tasks without a due date, ascending priority with priority 0 sorting
last, then descending creation timestamp.  The four-task example {due-A,
due-B > A, no-due priority 1, no-due priority 0} is pairwise ordered
A, B, priority-1, priority-0. -/
theorem c3_sort_order :
    (∀ a b : Todo, todoLess a b = true ↔
      ((goIsZero a.dueDate = false ∧ goIsZero b.dueDate = true) ∨
       (goIsZero a.dueDate = false ∧ goIsZero b.dueDate = false ∧
         goInstant a.dueDate < goInstant b.dueDate) ∨
       (goIsZero a.dueDate = true ∧ goIsZero b.dueDate = true ∧ a.priority ≠ b.priority ∧
         a.priority ≠ 0 ∧ (b.priority = 0 ∨ a.priority < b.priority)) ∨
       (goIsZero a.dueDate = true ∧ goIsZero b.dueDate = true ∧ a.priority = b.priority ∧
         goInstant b.created < goInstant a.created))) ∧
    (todoLess c3exA c3exB = true ∧ todoLess c3exB c3exP1 = true ∧
     todoLess c3exP1 c3exP0 = true ∧ todoLess c3exB c3exA = false ∧
     todoLess c3exP1 c3exB = false ∧ todoLess c3exP0 c3exP1 = false) := by
  constructor
  · intro a b
    unfold todoLess goBefore goAfter
    cases hz1 : goIsZero a.dueDate <;> cases hz2 : goIsZero b.dueDate <;>
      simp only [hz1, hz2] <;> norm_num <;> split_ifs <;> simp_all <;> omega
  · decide

/-! ## Claim C4: cancelling the outer edit prompt reverts an existing task -/

set_option maxHeartbeats 2000000 in
theorem editDispatch_cancel_orig (env : Env) (orig cur : Todo) (ts : List Todo)
    (ev : EditEvent) (r : EditResult)
    (hd : editDispatch env orig false cur ts ev = StepRes.done r)
    (hk : r.kind = EditKind.cancelled) : r.todo = orig := by
  unfold editDispatch at hd
  split at hd
  next =>
    cases hd
    rfl
  next out houter =>
    by_cases h1 : out = "Save item"
    · rw [if_pos h1] at hd
      cases hd
      cases hk
    · rw [if_neg h1] at hd
      by_cases h2 : strStartsWith out "Title" = true
      · rw [if_pos h2] at hd
        exact StepRes.noConfusion hd
      · rw [if_neg h2] at hd
        by_cases h3 : strStartsWith out "Priority" = true
        · rw [if_pos h3] at hd
          exact StepRes.noConfusion hd
        · rw [if_neg h3] at hd
          by_cases h4 : strStartsWith out "Categories" = true
          · rw [if_pos h4] at hd
            exact StepRes.noConfusion hd
          · rw [if_neg h4] at hd
            by_cases h5 : strStartsWith out "Due date" = true
            · rw [if_pos h5] at hd
              exact StepRes.noConfusion hd
            · rw [if_neg h5] at hd
              by_cases h6 : strStartsWith out "Start date" = true
              · rw [if_pos h6] at hd
                exact StepRes.noConfusion hd
              · rw [if_neg h6] at hd
                by_cases h7 : strStartsWith out "Start time" = true
                · rw [if_pos h7] at hd
                  exact StepRes.noConfusion hd
                · rw [if_neg h7] at hd
                  by_cases h8 : strStartsWith out "Description" = true
                  · rw [if_pos h8] at hd
                    exact StepRes.noConfusion hd
                  · rw [if_neg h8] at hd
                    by_cases h9 : strStartsWith out "Complete item" = true
                    · rw [if_pos h9] at hd
                      exact StepRes.noConfusion hd
                    · rw [if_neg h9] at hd
                      by_cases h10 : strStartsWith out "Restore item" = true
                      · rw [if_pos h10] at hd
                        exact StepRes.noConfusion hd
                      · rw [if_neg h10] at hd
                        by_cases h11 : strStartsWith out "Delete item" = true
                        · rw [if_pos h11] at hd
                          by_cases hc1 : lowerStr ev.confirm = "y"
                          · rw [if_pos hc1] at hd
                            by_cases hc2 : (deleteTodo cur ts ev.removeOk).2 = true
                            · rw [if_pos hc2] at hd
                              cases hd
                              cases hk
                            · rw [if_neg hc2] at hd
                              exact StepRes.noConfusion hd
                          · rw [if_neg hc1] at hd
                            exact StepRes.noConfusion hd
                        · rw [if_neg h11] at hd
                          exact StepRes.noConfusion hd

theorem editLoop_cancel_orig (env : Env) (orig : Todo) :
    ∀ (evs : List EditEvent) (cur : Todo) (ts : List Todo),
      (editLoop env orig false cur ts evs).kind = EditKind.cancelled →
      (editLoop env orig false cur ts evs).todo = orig := by
  intro evs
  induction evs with
  | nil =>
    intro cur ts h
    cases h
  | cons ev rest ih =>
    intro cur ts h
    unfold editLoop at h ⊢
    cases hd : editDispatch env orig false cur ts ev with
    | done r =>
      rw [hd] at h
      exact editDispatch_cancel_orig env orig cur ts ev r hd h
    | cont cur' ts' =>
      rw [hd] at h
      exact ih cur' ts' h

/-- C4: for an existing (already-persisted) task, cancelling the outer edit
prompt leaves every field of the task — including the dirty flag — equal to
the snapshot taken on entry to the edit loop, and the loop performs no
persistence. -/
theorem c4_cancel_reverts (env : Env) (todo : Todo) (ts : List Todo)
    (evs : List EditEvent) (huid : todo.uid ≠ "")
    (hk : (editItem env todo ts evs).kind = EditKind.cancelled) :
    (editItem env todo ts evs).todo = todo := by
  unfold editItem at hk ⊢
  have hb : (todo.uid == "") = false := beq_eq_false_iff_ne.mpr huid
  rw [hb] at hk ⊢
  exact editLoop_cancel_orig env todo evs todo ts hk

def c4todo : Todo := { baseTodo with uid := "u4", summary := "keep" }

def c4evs : List EditEvent :=
  [⟨some "Title: keep", some "changed", none, "", false, c8now⟩,
   ⟨some "Priority: 0", some "5", none, "", false, c8now⟩,
   ⟨none, none, none, "", false, c8now⟩]

/-- Witness for C4: a run that edits the title and the priority and then
escapes reverts the task to its entry snapshot. -/
theorem c4_witness :
    c4todo.uid ≠ "" ∧
    (editItem cEnv c4todo [] c4evs).kind = EditKind.cancelled ∧
    (editItem cEnv c4todo [] c4evs).todo = c4todo :=
  ⟨by decide, by decide, c4_cancel_reverts cEnv c4todo [] c4evs (by decide) (by decide)⟩

/-! ## Claim C5: save processes only dirty tasks -/

theorem clearDirty_of_clean (t : Todo) (h : t.modified = false) :
    ({ t with modified := false } : Todo) = t := by
  cases t
  simp_all

theorem saveTodos_fst (todos : List Todo) :
    ∀ fs, (saveTodos todos fs).1 = todos.map (fun u => { u with modified := false }) := by
  induction todos with
  | nil => intro fs; rfl
  | cons t rest ih =>
    intro fs
    unfold saveTodos
    by_cases hm : t.modified = true
    · rw [if_pos hm]
      simp only [List.map_cons]
      rw [ih]
    · rw [if_neg hm]
      simp only [List.map_cons]
      rw [ih]
      have : t.modified = false := by
        cases hb : t.modified
        · rfl
        · exact absurd hb hm
      rw [clearDirty_of_clean t this]

theorem lookupFS_insertFS_ne (k k' : String) (c : List VTodo) (h : k' ≠ k) :
    ∀ fs, lookupFS (insertFS fs k' c) k = lookupFS fs k := by
  have hbeq : (k' == k) = false := beq_eq_false_iff_ne.mpr h
  intro fs
  induction fs with
  | nil =>
    unfold insertFS lookupFS
    simp [List.find?, hbeq]
  | cons p rest ih =>
    unfold insertFS
    by_cases hp : (p.1 == k') = true
    · have hp1 : p.1 = k' := eq_of_beq hp
      rw [if_pos hp]
      unfold lookupFS
      simp only [List.find?]
      rw [hbeq, hp1]
      rw [show (k' == k) = false from hbeq]
    · rw [if_neg hp]
      unfold lookupFS
      simp only [List.find?]
      cases hq : (p.1 == k) with
      | true => rfl
      | false => exact ih

theorem saveTodos_frame (todos : List Todo) :
    ∀ fs k, (∀ t ∈ todos, t.modified = true → fname t ≠ k) →
      lookupFS (saveTodos todos fs).2 k = lookupFS fs k := by
  induction todos with
  | nil => intro fs k _; rfl
  | cons t rest ih =>
    intro fs k h
    unfold saveTodos
    by_cases hm : t.modified = true
    · rw [if_pos hm]
      simp only
      rw [ih _ k (fun u hu => h u (List.mem_cons_of_mem t hu))]
      exact lookupFS_insertFS_ne k (fname t) _ (h t (List.mem_cons_self t rest) hm) fs
    · rw [if_neg hm]
      simp only
      exact ih fs k (fun u hu => h u (List.mem_cons_of_mem t hu))

theorem fname_uid_eq (a b : Todo) (h : fname a = fname b) : a.uid = b.uid := by
  unfold fname at h
  have hd := congrArg String.data h
  rw [String.data_append, String.data_append] at hd
  have := List.append_cancel_right hd
  cases ha : a.uid
  cases hb : b.uid
  rw [ha, hb] at this
  simp_all

/-- C5: save processes only dirty tasks: the backing file of a task whose
dirty flag is false is neither rewritten nor deleted (given that no dirty
task shares its UID), and after a successful save every previously-dirty
task has its dirty flag reset to false while clean tasks are unchanged. -/
theorem c5_save_skips_clean (todos : List Todo) (fs : List (String × List VTodo))
    (t : Todo) (hmem : t ∈ todos) (hclean : t.modified = false)
    (huids : ∀ u ∈ todos, u.modified = true → u.uid ≠ t.uid) :
    lookupFS (saveTodos todos fs).2 (fname t) = lookupFS fs (fname t) ∧
    (saveTodos todos fs).1 = todos.map (fun u => { u with modified := false }) := by
  constructor
  · apply saveTodos_frame
    intro u hu hmod hcontra
    exact huids u hu hmod (fname_uid_eq u t hcontra)
  · exact saveTodos_fst todos fs

/-- Witness for C5 at a concrete two-task store with one dirty task. -/
theorem c5_witness :
    lookupFS (saveTodos [c5dirty, c5clean] c5fs).2 (fname c5clean) =
      lookupFS c5fs (fname c5clean) ∧
    (saveTodos [c5dirty, c5clean] c5fs).1 =
      [c5dirty, c5clean].map (fun u => { u with modified := false }) :=
  c5_save_skips_clean [c5dirty, c5clean] c5fs c5clean (by decide) (by decide) (by decide)

/-! ## Claim C9: no empty-summary task is added -/

theorem removeFirstUID_sub (uid : String) :
    ∀ ts u, u ∈ removeFirstUID uid ts → u ∈ ts := by
  intro ts
  induction ts with
  | nil => intro u hu; exact absurd hu (by simp [removeFirstUID])
  | cons v rest ih =>
    intro u hu
    unfold removeFirstUID at hu
    by_cases hv : (v.uid == uid) = true
    · rw [if_pos hv] at hu
      exact List.mem_cons_of_mem v hu
    · rw [if_neg hv] at hu
      rcases List.mem_cons.mp hu with h | h
      · exact h ▸ List.mem_cons_self v rest
      · exact List.mem_cons_of_mem v (ih u h)

set_option maxHeartbeats 2000000 in
theorem editDispatch_todos_sub (env : Env) (orig : Todo) (isNew : Bool) (cur : Todo)
    (ts : List Todo) (ev : EditEvent) (sr : StepRes)
    (hd : editDispatch env orig isNew cur ts ev = sr) (u : Todo)
    (hu : match sr with | StepRes.done r => u ∈ r.todos | StepRes.cont _ ts2 => u ∈ ts2) :
    u ∈ ts := by
  unfold editDispatch at hd
  split at hd
  next =>
    cases hd
    exact hu
  next out houter =>
    by_cases h1 : out = "Save item"
    · rw [if_pos h1] at hd
      cases hd
      exact hu
    · rw [if_neg h1] at hd
      by_cases h2 : strStartsWith out "Title" = true
      · rw [if_pos h2] at hd
        cases hd
        exact hu
      · rw [if_neg h2] at hd
        by_cases h3 : strStartsWith out "Priority" = true
        · rw [if_pos h3] at hd
          cases hd
          exact hu
        · rw [if_neg h3] at hd
          by_cases h4 : strStartsWith out "Categories" = true
          · rw [if_pos h4] at hd
            cases hd
            exact hu
          · rw [if_neg h4] at hd
            by_cases h5 : strStartsWith out "Due date" = true
            · rw [if_pos h5] at hd
              cases hd
              exact hu
            · rw [if_neg h5] at hd
              by_cases h6 : strStartsWith out "Start date" = true
              · rw [if_pos h6] at hd
                cases hd
                exact hu
              · rw [if_neg h6] at hd
                by_cases h7 : strStartsWith out "Start time" = true
                · rw [if_pos h7] at hd
                  cases hd
                  exact hu
                · rw [if_neg h7] at hd
                  by_cases h8 : strStartsWith out "Description" = true
                  · rw [if_pos h8] at hd
                    cases hd
                    exact hu
                  · rw [if_neg h8] at hd
                    by_cases h9 : strStartsWith out "Complete item" = true
                    · rw [if_pos h9] at hd
                      cases hd
                      exact hu
                    · rw [if_neg h9] at hd
                      by_cases h10 : strStartsWith out "Restore item" = true
                      · rw [if_pos h10] at hd
                        cases hd
                        exact hu
                      · rw [if_neg h10] at hd
                        by_cases h11 : strStartsWith out "Delete item" = true
                        · rw [if_pos h11] at hd
                          by_cases hc1 : lowerStr ev.confirm = "y"
                          · rw [if_pos hc1] at hd
                            by_cases hc2 : (deleteTodo cur ts ev.removeOk).2 = true
                            · rw [if_pos hc2] at hd
                              cases hd
                              exact removeFirstUID_sub cur.uid ts u hu
                            · rw [if_neg hc2] at hd
                              cases hd
                              exact removeFirstUID_sub cur.uid ts u hu
                          · rw [if_neg hc1] at hd
                            cases hd
                            exact hu
                        · rw [if_neg h11] at hd
                          cases hd
                          exact hu

theorem editLoop_todos_sub (env : Env) (orig : Todo) (isNew : Bool) :
    ∀ (evs : List EditEvent) (cur : Todo) (ts : List Todo) (u : Todo),
      u ∈ (editLoop env orig isNew cur ts evs).todos → u ∈ ts := by
  intro evs
  induction evs with
  | nil => intro cur ts u hu; exact hu
  | cons ev rest ih =>
    intro cur ts u hu
    unfold editLoop at hu
    cases hd : editDispatch env orig isNew cur ts ev with
    | done r =>
      rw [hd] at hu
      exact editDispatch_todos_sub env orig isNew cur ts ev (StepRes.done r) hd u hu
    | cont cur2 ts2 =>
      rw [hd] at hu
      exact editDispatch_todos_sub env orig isNew cur ts ev (StepRes.cont cur2 ts2) hd u
        (ih cur2 ts2 u hu)

theorem editItem_todos_sub (env : Env) (todo : Todo) (ts : List Todo)
    (evs : List EditEvent) (u : Todo) (hu : u ∈ (editItem env todo ts evs).todos) :
    u ∈ ts :=
  editLoop_todos_sub env todo (todo.uid == "") evs todo ts u hu
/-- C9: cancelling the title prompt or submitting an empty title adds no new
task to the store, and more generally any task in the collection after an
add-item interaction that has an empty summary was already present before —
a task with an empty summary is never added. -/
theorem c9_no_empty_added (env : Env) (titleRes : Option String) (evs : List EditEvent)
    (ts : List Todo) (now now2 : GoTime) :
    (titleRes = none ∨ titleRes = some "" → addItem env titleRes evs ts now now2 = ts) ∧
    (∀ t ∈ addItem env titleRes evs ts now now2, t.summary = "" → t ∈ ts) := by
  constructor
  · rintro (h | h) <;> subst h <;> rfl
  · intro t ht hsum
    unfold addItem at ht
    cases titleRes with
    | none => exact ht
    | some title =>
      simp only at ht
      by_cases hti : title ≠ ""
      · rw [if_pos hti] at ht
        by_cases hg : (editItem env { newTodoAt now with summary := title } ts evs).todo.summary
            ≠ "" ∧ (editItem env { newTodoAt now with summary := title } ts evs).todo.modified
            = true
        · rw [if_pos hg] at ht
          rcases List.mem_append.mp ht with h | h
          · exact editItem_todos_sub env _ ts evs t h
          · exfalso
            have ht2 : t =
                { (editItem env { newTodoAt now with summary := title } ts evs).todo with
                  lastMod := now2 } := by
              simpa using h
            apply hg.1
            rw [← hsum, ht2]
        · rw [if_neg hg] at ht
          exact editItem_todos_sub env _ ts evs t ht
      · rw [if_neg hti] at ht
        exact ht

/-- Witness for C9: an empty title leaves the store unchanged. -/
theorem c9_witness : addItem cEnv (some "") [] [c4todo] goZero goZero = [c4todo] :=
  (c9_no_empty_added cEnv (some "") [] [c4todo] goZero goZero).1 (Or.inr rfl)
